import Mathlib

/-!
Verification of the inference-server task pipeline.

Shallow embedding of the Python sources:
  `app/utils/timing.py`      → `Timer`
  `app/utils/idempotency.py` → `IdempotencyCache`
  `app/deps/ratelimit.py`    → `RateLimiter`
  `app/deps/auth.py`         → `verify_api_key`
  `app/main.py`              → `submit_task` (POST /v1/tasks pipeline)
  `app/tasks/gpu_worker.py`  → `process_inference`
  `app/models/base.py`       → `BaseModelRunner.run` / `cleanup`

Python dictionaries are embedded as association lists (`List (String × α)`);
`upsert` removes any previous binding of the key and appends the new one,
`eraseK` models `del d[k]`, `lookupK` models `d.get(k)`.  Wall-clock reads
(`time.time()`, `datetime.now()`) become explicit rational-valued `now`
arguments threaded through each operation, measured in the unit the source
uses at that site (seconds for the cache/limiter, seconds scaled by 1000
inside `Timer`).
-/

namespace InferenceServer

/-- Dictionary lookup on an association list (first binding wins, as the
embedding keeps keys unique). -/
def lookupK {α : Type} (k : String) : List (String × α) → Option α
  | [] => none
  | (k', v) :: t => if k' = k then some v else lookupK k t

/-- Dictionary update `d[k] = v`: drop every old binding of `k`, append the
new one. -/
def upsert {α : Type} (k : String) (v : α) (l : List (String × α)) : List (String × α) :=
  l.filter (fun p => p.1 ≠ k) ++ [(k, v)]

/-- Dictionary deletion `del d[k]`. -/
def eraseK {α : Type} (k : String) (l : List (String × α)) : List (String × α) :=
  l.filter (fun p => p.1 ≠ k)

/-! ### `app/utils/timing.py` — `Timer`

`start(name)` records `time.time() * 1000`; `stop(name)` stores
`time.time() * 1000 - start_times[name]` in `timings` and removes the start
mark, returning `0.0` if the timer was never started.  `get_all_timings`
returns a fresh dict with every value rounded to 2 decimals. -/

structure Timer where
  timings : List (String × ℚ)
  start_times : List (String × ℚ)
deriving DecidableEq

def Timer.init : Timer := ⟨[], []⟩

def Timer.start (tm : Timer) (name : String) (now : ℚ) : Timer :=
  { tm with start_times := upsert name (now * 1000) tm.start_times }

def Timer.stop (tm : Timer) (name : String) (now : ℚ) : Timer × ℚ :=
  match lookupK name tm.start_times with
  | none => (tm, 0)
  | some s =>
    let elapsed_ms := now * 1000 - s
    (⟨upsert name elapsed_ms tm.timings, eraseK name tm.start_times⟩, elapsed_ms)

/-- `round(x, 2)` from the source's `get_all_timings`. -/
def round2 (x : ℚ) : ℚ := (round (x * 100) : ℚ) / 100

def Timer.get_all_timings (tm : Timer) : List (String × ℚ) :=
  tm.timings.map (fun p => (p.1, round2 p.2))

/-! ### `app/utils/idempotency.py` — `IdempotencyCache`

State: `cache : client_request_id → (task_id, timestamp)` plus the TTL.
`get_task_id` first runs `_cleanup_expired`, then honours an entry strictly
younger than the TTL (deleting a stale one); `set_task_id` overwrites
unconditionally and does not run `_cleanup_expired`.  The `_by_content`
variants key by a canonical-JSON SHA-256 digest of the request dict, which
the embedding abstracts as a hash function parameter. -/

structure IdempotencyCache where
  cache : List (String × (String × ℚ))
  ttl_seconds : ℚ
deriving DecidableEq

namespace IdempotencyCache

def _cleanup_expired (c : IdempotencyCache) (now : ℚ) : IdempotencyCache :=
  { c with cache := c.cache.filter (fun e => ¬ (now - e.2.2 > c.ttl_seconds)) }

def get_task_id (c : IdempotencyCache) (client_request_id : String) (now : ℚ) :
    IdempotencyCache × Option String :=
  let c1 := _cleanup_expired c now
  match lookupK client_request_id c1.cache with
  | some (task_id, timestamp) =>
    if now - timestamp < c.ttl_seconds then (c1, some task_id)
    else ({ c1 with cache := eraseK client_request_id c1.cache }, none)
  | none => (c1, none)

def set_task_id (c : IdempotencyCache) (client_request_id task_id : String) (now : ℚ) :
    IdempotencyCache :=
  { c with cache := upsert client_request_id (task_id, now) c.cache }

def get_by_content {ρ : Type} (hash : ρ → String) (c : IdempotencyCache)
    (request_data : ρ) (now : ℚ) : IdempotencyCache × Option String :=
  get_task_id c (hash request_data) now

def set_by_content {ρ : Type} (hash : ρ → String) (c : IdempotencyCache)
    (request_data : ρ) (task_id : String) (now : ℚ) : IdempotencyCache :=
  set_task_id c (hash request_data) task_id now

def clear (c : IdempotencyCache) : IdempotencyCache :=
  { c with cache := [] }

end IdempotencyCache

/-! ### `app/deps/ratelimit.py` — `RateLimiter`

`check_rate_limit(key)` trims the key's bucket to timestamps strictly newer
than `now - 60` seconds, rejects (HTTP 429) when the trimmed bucket already
holds `requests_per_minute` entries, and otherwise appends `now`.  The
returned `Bool` is `true` when the call is accepted (does not raise). -/

structure RateLimiter where
  requests_per_minute : ℕ
  requests : List (String × List ℚ)
deriving DecidableEq

namespace RateLimiter

def init (requests_per_minute : ℕ) : RateLimiter := ⟨requests_per_minute, []⟩

def check_rate_limit (rl : RateLimiter) (key : String) (now : ℚ) : RateLimiter × Bool :=
  let minute_ago := now - 60
  let bucket := (lookupK key rl.requests).getD []
  let trimmed := bucket.filter (fun t => minute_ago < t)
  if rl.requests_per_minute ≤ trimmed.length then
    ({ rl with requests := upsert key trimmed rl.requests }, false)
  else
    ({ rl with requests := upsert key (trimmed ++ [now]) rl.requests }, true)

def reset (rl : RateLimiter) (key : String) : RateLimiter :=
  { rl with requests := eraseK key rl.requests }

end RateLimiter

/-! #### Rate-limiter trace semantics

To state the sliding-window bound we run a whole sequence of
`check_rate_limit` calls and record, per call, the key, the wall-clock
time, and whether the call was accepted. -/

structure RLEvent where
  key : String
  time : ℚ
  ok : Bool
deriving DecidableEq

/-- Process a list of `(key, now)` calls in order; returns the final
limiter state and the recorded events. -/
def runCalls (rl : RateLimiter) : List (String × ℚ) → RateLimiter × List RLEvent
  | [] => (rl, [])
  | (k, t) :: rest =>
    let s := rl.check_rate_limit k t
    let r := runCalls s.1 rest
    (r.1, ⟨k, t, s.2⟩ :: r.2)

/-- The bucket currently stored for a key (empty when absent). -/
def bucketOf (rl : RateLimiter) (K : String) : List ℚ :=
  (lookupK K rl.requests).getD []

/-- Number of accepted events for key `K` with time strictly above `c`. -/
def acceptedAbove (K : String) (c : ℚ) (evs : List RLEvent) : ℕ :=
  evs.countP (fun e => decide (e.key = K) && e.ok && decide (c < e.time))

/-- Number of accepted events for key `K` inside the trailing window
`(T - 60, T]`. -/
def acceptedInWindow (K : String) (T : ℚ) (evs : List RLEvent) : ℕ :=
  evs.countP (fun e =>
    decide (e.key = K) && e.ok && decide (T - 60 < e.time) && decide (e.time ≤ T))

/-- Time of the most recent event for key `K`, if any. -/
def lastTime (K : String) (evs : List RLEvent) : Option ℚ :=
  evs.foldl (fun acc e => if e.key = K then some e.time else acc) none

/-- State invariant tying a limiter to the history that produced it: for
every key and every cutoff no older than 60 s before the key's last call,
the stored bucket holds at least one timestamp above the cutoff per
accepted call above the cutoff. -/
def RLInv (rl : RateLimiter) (evs : List RLEvent) : Prop :=
  ∀ (K : String) (c : ℚ),
    (∀ m, lastTime K evs = some m → m - 60 ≤ c) →
    acceptedAbove K c evs ≤ ((bucketOf rl K).countP (fun x => decide (c < x)))

/-- Every accepted call saw fewer than `L` prior accepted calls for its key
within its own trailing 60 s. -/
def GoodRun (L : ℕ) (evs : List RLEvent) : Prop :=
  ∀ pre e post, evs = pre ++ e :: post → e.ok = true →
    acceptedAbove e.key (e.time - 60) pre < L

/-! ### `app/deps/auth.py` — `verify_api_key`

The dependency receives the `x-api-key` header value (`none` when FastAPI's
`APIKeyHeader` found no usable header).  Python's `if not api_key:` treats
both `None` and the empty string as missing.  On success the key itself is
returned; on failure an `HTTPException(401, detail)` is raised, embedded as
`Except` with the detail string. -/

def verify_api_key (api_key : Option String) (valid_keys : List String) :
    Except String String :=
  match api_key with
  | none => .error "Missing API key"
  | some k =>
    if k = "" then .error "Missing API key"
    else if k ∈ valid_keys then .ok k
    else .error "Invalid API key"

/-! ### `app/main.py` — POST `/v1/tasks` (`submit_task`)

The handler body, after the `verify_api_key` dependency: rate limit on the
api key, idempotency lookup when `client_request_id` is truthy (non-`None`
and non-empty), model validation against the registry, fresh task id,
`celery_app.send_task` onto queue `"gpu-" + priority` with the numeric
priority map, idempotency store, 202 response.  The broker is embedded as
the growing list `published`; `uuid.uuid4()` is an explicit `fresh_tid`
argument; the registry catalog is the `models` list parameter.  `ι` is the
opaque type of the request's `input` mapping. -/

inductive Priority
  | high
  | normal
  | low
deriving DecidableEq

def Priority.str : Priority → String
  | .high => "high"
  | .normal => "normal"
  | .low => "low"

/-- `{"high": 9, "normal": 5, "low": 1}[request.priority]` -/
def Priority.num : Priority → ℕ
  | .high => 9
  | .normal => 5
  | .low => 1

structure TaskRequest (ι : Type) where
  model : String
  input : ι
  priority : Priority
  client_request_id : Option String
  callback_url : Option String

/-- One `celery_app.send_task` call as observed at the broker. -/
structure PublishedMsg (ι : Type) where
  task_name : String
  queue : String
  task_id : String
  model : String
  input : ι
  callback_url : Option String
  priority : ℕ
deriving DecidableEq

structure GatewayState (ι : Type) where
  rateLimiter : RateLimiter
  idemCache : IdempotencyCache
  published : List (PublishedMsg ι)
deriving DecidableEq

inductive SubmitOutcome
  | accepted (task_id : String) (status : String)
  | error (code : ℕ) (detail : String)
deriving DecidableEq

/-- Python truthiness of the optional `client_request_id`. -/
def isTruthy : Option String → Bool
  | none => false
  | some s => !(s = "")

/-- Steps (4)–(7) of the handler: model validation, enqueue, idempotency
store, 202 response. -/
def submitCore {ι : Type} (models : List String) (st : GatewayState ι)
    (req : TaskRequest ι) (now : ℚ) (fresh_tid : String) :
    GatewayState ι × SubmitOutcome :=
  if req.model ∈ models then
    let msg : PublishedMsg ι :=
      { task_name := "app.tasks.gpu_worker.process_inference"
        queue := "gpu-" ++ req.priority.str
        task_id := fresh_tid
        model := req.model
        input := req.input
        callback_url := req.callback_url
        priority := req.priority.num }
    let st1 := { st with published := st.published ++ [msg] }
    let st2 :=
      if isTruthy req.client_request_id then
        { st1 with idemCache :=
            st1.idemCache.set_task_id (req.client_request_id.getD "") fresh_tid now }
      else st1
    (st2, .accepted fresh_tid "PENDING")
  else
    (st, .error 400 ("Model " ++ req.model ++ " not supported. Available models: " ++
      String.intercalate ", " models))

/-- The full handler: auth dependency, rate limit, idempotency lookup,
then `submitCore`. -/
def submit_task {ι : Type} (models valid_keys : List String) (st : GatewayState ι)
    (api_key : Option String) (req : TaskRequest ι) (now : ℚ) (fresh_tid : String) :
    GatewayState ι × SubmitOutcome :=
  match verify_api_key api_key valid_keys with
  | .error detail => (st, .error 401 detail)
  | .ok key =>
    let (rl, ok) := st.rateLimiter.check_rate_limit key now
    let st1 := { st with rateLimiter := rl }
    if !ok then
      (st1, .error 429 ("Rate limit exceeded. Maximum " ++
        toString st.rateLimiter.requests_per_minute ++ " requests per minute."))
    else if isTruthy req.client_request_id then
      let (c, found) := st1.idemCache.get_task_id (req.client_request_id.getD "") now
      let st2 := { st1 with idemCache := c }
      match found with
      | some existing_task_id => (st2, .accepted existing_task_id "PENDING")
      | none => submitCore models st2 req now fresh_tid
    else
      submitCore models st1 req now fresh_tid

/-! ### `app/tasks/gpu_worker.py` — `process_inference`

Values in the runner's result dict.  The worker only inspects the
`"image_bytes"` key; everything else is carried opaquely. -/

inductive PyValue
  | pyBytes (b : List ℕ)
  | pyStr (s : String)
  | pyInt (n : ℤ)
  | pyIntList (l : List ℤ)
deriving DecidableEq

/-- The storage phase: if `"image_bytes" in result`, upload the bytes to
`results/{task_id}.png` (here: string concatenation, no braces), set
`result["s3_key"]` and `result["s3_url"]`, and delete `"image_bytes"`.
`upload` abstracts `StorageService.upload_bytes(data, key, content_type)`
and returns the URL. -/
def storage_phase (upload : PyValue → String → String → String) (task_id : String)
    (result : List (String × PyValue)) : List (String × PyValue) :=
  match lookupK "image_bytes" result with
  | some v =>
    let s3_key := "results/" ++ task_id ++ ".png"
    let s3_url := upload v s3_key "image/png"
    eraseK "image_bytes"
      (upsert "s3_url" (.pyStr s3_url) (upsert "s3_key" (.pyStr s3_key) result))
  | none => result

/-- The SUCCESS envelope returned by the worker. -/
structure Envelope where
  task_id : String
  status : String
  timing : List (String × ℚ)
  result : List (String × PyValue)
deriving DecidableEq

/-- One `httpx.post(callback_url, json=response, timeout=30)` attempt. -/
structure CallbackPost where
  url : String
  payload : Envelope
  timeout : ℕ
deriving DecidableEq

/-- The happy path of `process_inference`.  `clock i` is the `i`-th
`time.time()` read (seconds); `run_result` is what `runner.run(input_data)`
returns; `callback_raises` says whether the `httpx.post` raises (in which
case `timer.stop("callback")` is skipped but the response is still
returned).  The result triple is (returned envelope, final timer state,
callback posts attempted). -/
def process_inference (clock : ℕ → ℚ) (task_id : String)
    (run_result : List (String × PyValue))
    (upload : PyValue → String → String → String)
    (callback_url : Option String) (callback_raises : Bool) :
    Envelope × Timer × List CallbackPost :=
  let t1 := Timer.init.start "total" (clock 0)
  let t2 := t1.start "model_loading" (clock 1)
  let t3 := (t2.stop "model_loading" (clock 2)).1
  let t4 := t3.start "inference" (clock 3)
  let result := run_result
  let t5 := (t4.stop "inference" (clock 4)).1
  let t6 := t5.start "storage" (clock 5)
  let result2 := storage_phase upload task_id result
  let t7 := (t6.stop "storage" (clock 6)).1
  let t8 := (t7.stop "total" (clock 7)).1
  let timing := t8.get_all_timings
  let response : Envelope := ⟨task_id, "SUCCESS", timing, result2⟩
  match callback_url with
  | some url =>
    let t9 := t8.start "callback" (clock 8)
    let t10 := if callback_raises then t9 else (t9.stop "callback" (clock 9)).1
    (response, t10, [⟨url, response, 30⟩])
  | none => (response, t8, [])

/-! ### `app/models/base.py` — `BaseModelRunner`

The abstract subclass behaviour (`load_model`, `prepare`, `infer`,
`postprocess`) is a record of pure functions over opaque input/tensor/
result/model types; `run` orchestrates them, and the embedding additionally
emits the ordered list of pipeline events, with the `infer` event carrying
whether gradient tracking was disabled (`torch.no_grad()` in the source). -/

structure RunnerImpl (I T R M : Type) where
  load_model : M
  prepare : I → T
  infer : T → T
  postprocess : T → R

structure RunnerState (M : Type) where
  model : Option M
  is_loaded : Bool

inductive RunnerEvent
  | load_model
  | prepare
  | infer (grad_disabled : Bool)
  | postprocess
deriving DecidableEq

namespace BaseModelRunner

def run {I T R M : Type} (impl : RunnerImpl I T R M) (st : RunnerState M)
    (input_data : I) : RunnerState M × R × List RunnerEvent :=
  let (st1, evs1) :=
    if st.is_loaded then (st, [])
    else ({ model := some impl.load_model, is_loaded := true }, [RunnerEvent.load_model])
  let input_tensor := impl.prepare input_data
  let output_tensor := impl.infer input_tensor
  let result := impl.postprocess output_tensor
  (st1, result, evs1 ++ [.prepare, .infer true, .postprocess])

def cleanup {M : Type} (_st : RunnerState M) : RunnerState M :=
  { model := none, is_loaded := false }

end BaseModelRunner

/-! ### Concrete instances used by counterexamples and witnesses -/

/-- A cache holding one entry written at time 0, default TTL 3600 s. -/
def cache0 : IdempotencyCache := ⟨[("old-req", ("task-0", 0))], 3600⟩

/-- A fresh gateway over the default configuration, `Unit` input payload. -/
def gw0 : GatewayState Unit := ⟨RateLimiter.init 60, ⟨[], 3600⟩, []⟩

def req0 : TaskRequest Unit :=
  ⟨"superres-x4", (), .high, none, none⟩

def reqIdem : TaskRequest Unit :=
  ⟨"superres-x4", (), .normal, some "unique-request-123", none⟩

def clock0 : ℕ → ℚ := fun i => (i : ℚ)

def runResult0 : List (String × PyValue) :=
  [("image_bytes", .pyBytes [1, 2, 3]), ("size", .pyIntList [896, 896])]

def upload0 : PyValue → String → String → String :=
  fun _ key _ => "http://storage.local/" ++ key

/-! ## Association-list lemmas -/

theorem lookupK_append {α : Type} (k : String) (l r : List (String × α)) :
    lookupK k (l ++ r) = ((lookupK k l).rec (lookupK k r) (fun v => some v)) := by
  induction l with
  | nil => rfl
  | cons h t ih =>
    obtain ⟨k', v⟩ := h
    by_cases hk : k' = k <;> simp [lookupK, hk, ih]

theorem lookupK_eq_none_of_forall {α : Type} (k : String) (l : List (String × α))
    (h : ∀ e ∈ l, e.1 ≠ k) : lookupK k l = none := by
  induction l with
  | nil => rfl
  | cons hd t ih =>
    obtain ⟨k', v⟩ := hd
    have hk : k' ≠ k := h (k', v) (List.mem_cons_self _ _)
    simp only [lookupK, if_neg hk]
    exact ih (fun e he => h e (List.mem_cons_of_mem _ he))

theorem lookupK_filter_self_ne {α : Type} (k : String) (l : List (String × α)) :
    lookupK k (l.filter (fun q => q.1 ≠ k)) = none := by
  refine lookupK_eq_none_of_forall k _ (fun e he => ?_)
  have := List.of_mem_filter he
  simpa using this

theorem lookupK_upsert_self {α : Type} (k : String) (v : α) (l : List (String × α)) :
    lookupK k (upsert k v l) = some v := by
  unfold upsert
  rw [lookupK_append, lookupK_filter_self_ne]
  simp [lookupK]

theorem lookupK_filter_of_ne {α : Type} (k' : String) (p : String × α → Bool)
    (l : List (String × α)) (hp : ∀ v, p (k', v) = true) :
    lookupK k' (l.filter p) = lookupK k' l := by
  induction l with
  | nil => rfl
  | cons hd t ih =>
    obtain ⟨k0, v0⟩ := hd
    by_cases h0 : k0 = k'
    · subst h0
      simp [List.filter_cons, hp v0, lookupK]
    · by_cases hpp : p (k0, v0) <;>
        simp [List.filter_cons, hpp, lookupK, h0, ih]

theorem lookupK_upsert_ne {α : Type} (k k' : String) (v : α) (l : List (String × α))
    (h : k' ≠ k) : lookupK k' (upsert k v l) = lookupK k' l := by
  unfold upsert
  rw [lookupK_append]
  have heq : lookupK k' (l.filter (fun p => p.1 ≠ k)) = lookupK k' l := by
    apply lookupK_filter_of_ne
    intro v'
    simpa using h
  rw [heq]
  cases hl : lookupK k' l with
  | none => simp [lookupK, Ne.symm h]
  | some w => simp

theorem lookupK_eraseK_ne {α : Type} (k k' : String) (l : List (String × α))
    (h : k' ≠ k) : lookupK k' (eraseK k l) = lookupK k' l := by
  unfold eraseK
  apply lookupK_filter_of_ne
  intro v'
  simpa using h

theorem mem_eraseK {α : Type} {e : String × α} {k : String} {l : List (String × α)}
    (h : e ∈ eraseK k l) : e ∈ l :=
  List.mem_of_mem_filter h

/-! ## C9 — runner lifecycle -/

/-- C9: after `cleanup` the `is_loaded` flag is false and the next `run`
re-loads the model before `prepare`/`infer`/`postprocess`; in general `run`
loads lazily exactly when `is_loaded` is false, runs `infer` with gradient
tracking disabled, returns the `postprocess` dict, and leaves the runner
loaded. -/
theorem runner_cleanup_and_lazy_load {I T R M : Type} (impl : RunnerImpl I T R M)
    (st : RunnerState M) (input_data : I) :
    (BaseModelRunner.cleanup st).is_loaded = false ∧
    (BaseModelRunner.run impl (BaseModelRunner.cleanup st) input_data).2.2 =
      [.load_model, .prepare, .infer true, .postprocess] ∧
    (RunnerEvent.load_model ∈ (BaseModelRunner.run impl st input_data).2.2 ↔
      st.is_loaded = false) ∧
    (∀ g, RunnerEvent.infer g ∈ (BaseModelRunner.run impl st input_data).2.2 → g = true) ∧
    RunnerEvent.infer true ∈ (BaseModelRunner.run impl st input_data).2.2 ∧
    (BaseModelRunner.run impl st input_data).2.1 =
      impl.postprocess (impl.infer (impl.prepare input_data)) ∧
    (BaseModelRunner.run impl st input_data).1.is_loaded = true := by
  cases h : st.is_loaded <;>
    simp_all [BaseModelRunner.run, BaseModelRunner.cleanup]

/-! ## C6 — idempotency cache eviction discipline -/

/-- C6 counterexample: `set_task_id` does not evict expired entries first.
In `cache0` the entry `"old-req"` is 10000 s old (TTL 3600 s), yet after
`set_task_id "new-req" …` it is still present. -/
theorem set_task_id_skips_eviction_cex :
    (10000 : ℚ) - 0 > cache0.ttl_seconds ∧
    lookupK "old-req" ((cache0.set_task_id "new-req" "task-1" 10000).cache) =
      some ("task-0", 0) := by
  constructor
  · norm_num [cache0]
  · rfl

/-- C6 amended: `get_task_id` (and hence `get_by_content`) first evicts every
entry older than the TTL; `set_task_id` (and hence `set_by_content`)
performs no eviction but overwrites the written key unconditionally and
leaves every other key untouched. -/
theorem idempotency_eviction_amended :
    (∀ (c : IdempotencyCache) (crid : String) (now : ℚ),
      ∀ e ∈ ((c.get_task_id crid now).1).cache, now - e.2.2 ≤ c.ttl_seconds) ∧
    (∀ (hash : ℕ → String) (c : IdempotencyCache) (rd : ℕ) (now : ℚ),
      ∀ e ∈ ((IdempotencyCache.get_by_content hash c rd now).1).cache,
        now - e.2.2 ≤ c.ttl_seconds) ∧
    (∀ (c : IdempotencyCache) (crid task_id : String) (now : ℚ),
      lookupK crid ((c.set_task_id crid task_id now).cache) = some (task_id, now)) ∧
    (∀ (c : IdempotencyCache) (crid task_id : String) (now : ℚ) (k : String),
      k ≠ crid →
      lookupK k ((c.set_task_id crid task_id now).cache) = lookupK k c.cache) := by
  have hget : ∀ (c : IdempotencyCache) (crid : String) (now : ℚ),
      ∀ e ∈ ((c.get_task_id crid now).1).cache, now - e.2.2 ≤ c.ttl_seconds := by
    intro c crid now e he
    have hclean : ∀ e' ∈ (c._cleanup_expired now).cache, now - e'.2.2 ≤ c.ttl_seconds := by
      intro e' he'
      have hb : ¬ (now - e'.2.2 > c.ttl_seconds) := by
        have hm := List.of_mem_filter he'
        simpa using hm
      exact not_lt.mp hb
    simp only [IdempotencyCache.get_task_id] at he
    rcases hl : lookupK crid (c._cleanup_expired now).cache with _ | ⟨tid, ts⟩
    · simp only [hl] at he
      exact hclean e he
    · simp only [hl] at he
      by_cases hfresh : now - ts < c.ttl_seconds
      · simp only [if_pos hfresh] at he
        exact hclean e he
      · simp only [if_neg hfresh] at he
        exact hclean e (mem_eraseK he)
  refine ⟨hget, fun hash c rd now => hget c (hash rd) now, ?_, ?_⟩
  · intro c crid task_id now
    exact lookupK_upsert_self _ _ _
  · intro c crid task_id now k hk
    exact lookupK_upsert_ne _ _ _ _ hk

/-- Witness for `idempotency_eviction_amended` at concrete inputs. -/
theorem idempotency_eviction_amended_witness :
    ("old-req" : String) ≠ "new-req" ∧
    lookupK "old-req" ((cache0.set_task_id "new-req" "task-1" 10000).cache) =
      lookupK "old-req" cache0.cache :=
  ⟨by decide, idempotency_eviction_amended.2.2.2 cache0 "new-req" "task-1" 10000 "old-req"
    (by decide)⟩

/-! ## C5 — unauthorized submissions -/

/-- C5 counterexample: a present but empty `x-api-key` is not in the
allowlist, yet the detail is `"Missing API key"`, not `"Invalid API key"`
(Python's `if not api_key:` treats the empty string as missing). -/
theorem submit_empty_key_detail_cex :
    "" ∉ ["test-key-123"] ∧
    (submit_task ["superres-x4"] ["test-key-123"] gw0 (some "") req0 0 "tid-1").2 =
      .error 401 "Missing API key" ∧
    "Missing API key" ≠ "Invalid API key" := by
  refine ⟨by decide, rfl, by decide⟩

/-- C5 amended: a submission whose API key is absent, empty, or not in the
allowlist gets 401 — detail `"Missing API key"` when absent or empty,
`"Invalid API key"` otherwise — and leaves the whole gateway state (broker
publications and rate-limit buckets included) unchanged. -/
theorem submit_unauthorized_amended {ι : Type} (models valid_keys : List String)
    (st : GatewayState ι) (api_key : Option String) (req : TaskRequest ι)
    (now : ℚ) (fresh_tid : String)
    (h : api_key = none ∨ api_key = some "" ∨
      ∃ k, api_key = some k ∧ k ∉ valid_keys) :
    (submit_task models valid_keys st api_key req now fresh_tid).1 = st ∧
    (submit_task models valid_keys st api_key req now fresh_tid).2 =
      .error 401 (if api_key = none ∨ api_key = some "" then "Missing API key"
        else "Invalid API key") := by
  rcases h with h | h | ⟨k, hk, hnot⟩
  · subst h
    simp [submit_task, verify_api_key]
  · subst h
    simp [submit_task, verify_api_key]
  · subst hk
    by_cases hempty : k = ""
    · subst hempty
      simp [submit_task, verify_api_key]
    · simp [submit_task, verify_api_key, hempty, hnot]

/-- Witness for `submit_unauthorized_amended`: missing key on a fresh
gateway. -/
theorem submit_unauthorized_amended_witness :
    (none = (none : Option String) ∨ (none : Option String) = some "" ∨
      ∃ k, (none : Option String) = some k ∧ k ∉ ["test-key-123"]) ∧
    ((submit_task ["superres-x4"] ["test-key-123"] gw0 none req0 0 "tid-1").1 = gw0 ∧
     (submit_task ["superres-x4"] ["test-key-123"] gw0 none req0 0 "tid-1").2 =
       .error 401 (if (none : Option String) = none ∨ (none : Option String) = some ""
         then "Missing API key" else "Invalid API key")) :=
  ⟨Or.inl rfl,
    submit_unauthorized_amended ["superres-x4"] ["test-key-123"] gw0 none req0 0 "tid-1"
      (Or.inl rfl)⟩

/-! ## C2 — exactly one publish per successful submission -/

/-- C2: a submission that passes auth, rate limiting, the idempotency
lookup and model validation publishes exactly one message, to queue
`"gpu-" ++ priority` with numeric priority 9/5/1 for high/normal/low, and
the 202 response carries the same `task_id` that was published. -/
theorem submit_publishes_exactly_once {ι : Type} (models valid_keys : List String)
    (st : GatewayState ι) (api_key : Option String) (req : TaskRequest ι)
    (now : ℚ) (fresh_tid : String) (key : String)
    (hauth : verify_api_key api_key valid_keys = .ok key)
    (hrl : (st.rateLimiter.check_rate_limit key now).2 = true)
    (hidem : isTruthy req.client_request_id = false ∨
      (st.idemCache.get_task_id (req.client_request_id.getD "") now).2 = none)
    (hmodel : req.model ∈ models) :
    (submit_task models valid_keys st api_key req now fresh_tid).2 =
      .accepted fresh_tid "PENDING" ∧
    (∃ m : PublishedMsg ι,
      (submit_task models valid_keys st api_key req now fresh_tid).1.published =
        st.published ++ [m] ∧
      m.queue = "gpu-" ++ req.priority.str ∧
      m.task_id = fresh_tid ∧
      m.priority = req.priority.num) ∧
    Priority.num .high = 9 ∧ Priority.num .normal = 5 ∧ Priority.num .low = 1 := by
  have hcore : ∀ st' : GatewayState ι, st'.published = st.published →
      (submitCore models st' req now fresh_tid).2 = .accepted fresh_tid "PENDING" ∧
      ∃ m : PublishedMsg ι,
        (submitCore models st' req now fresh_tid).1.published = st.published ++ [m] ∧
        m.queue = "gpu-" ++ req.priority.str ∧
        m.task_id = fresh_tid ∧
        m.priority = req.priority.num := by
    intro st' hpub
    unfold submitCore
    rw [if_pos hmodel]
    by_cases htr : isTruthy req.client_request_id <;>
      simp [htr, hpub, IdempotencyCache.set_task_id]
  rcases hck : st.rateLimiter.check_rate_limit key now with ⟨rl1, ok1⟩
  rw [hck] at hrl
  simp only at hrl
  subst hrl
  rcases hidem with hidem | hidem
  · have hres := hcore { st with rateLimiter := rl1 } rfl
    refine ⟨?_, ?_, rfl, rfl, rfl⟩ <;>
      · simp only [submit_task, hauth, hck, hidem, Bool.not_true, Bool.false_eq_true,
          if_false]
        first
        | exact hres.1
        | exact hres.2
  · by_cases htr : isTruthy req.client_request_id
    · rcases hgt : st.idemCache.get_task_id (req.client_request_id.getD "") now with ⟨c1, found⟩
      rw [hgt] at hidem
      simp only at hidem
      subst hidem
      have hres := hcore { st with rateLimiter := rl1, idemCache := c1 } rfl
      refine ⟨?_, ?_, rfl, rfl, rfl⟩ <;>
        · simp only [submit_task, hauth, hck, htr, hgt, Bool.not_true, if_true,
            Bool.false_eq_true, if_false]
          first
          | exact hres.1
          | exact hres.2
    · have hres := hcore { st with rateLimiter := rl1 } rfl
      refine ⟨?_, ?_, rfl, rfl, rfl⟩ <;>
        · simp only [submit_task, hauth, hck, htr, Bool.not_true, Bool.false_eq_true,
            if_false]
          first
          | exact hres.1
          | exact hres.2

/-- Witness for `submit_publishes_exactly_once`: the happy-path submission of
end-to-end scenario 3. -/
theorem submit_publishes_exactly_once_witness :
    verify_api_key (some "test-key-123") ["test-key-123"] = .ok "test-key-123" ∧
    (gw0.rateLimiter.check_rate_limit "test-key-123" 0).2 = true ∧
    (isTruthy req0.client_request_id = false ∨
      (gw0.idemCache.get_task_id (req0.client_request_id.getD "") 0).2 = none) ∧
    req0.model ∈ ["superres-x4"] ∧
    ((submit_task ["superres-x4"] ["test-key-123"] gw0 (some "test-key-123") req0 0
        "tid-1").2 = .accepted "tid-1" "PENDING" ∧
     (∃ m : PublishedMsg Unit,
       (submit_task ["superres-x4"] ["test-key-123"] gw0 (some "test-key-123") req0 0
          "tid-1").1.published = gw0.published ++ [m] ∧
       m.queue = "gpu-" ++ req0.priority.str ∧
       m.task_id = "tid-1" ∧
       m.priority = req0.priority.num) ∧
     Priority.num .high = 9 ∧ Priority.num .normal = 5 ∧ Priority.num .low = 1) :=
  ⟨rfl, rfl, Or.inl rfl, by decide,
    submit_publishes_exactly_once ["superres-x4"] ["test-key-123"] gw0
      (some "test-key-123") req0 0 "tid-1" "test-key-123" rfl rfl (Or.inl rfl) (by decide)⟩

/-! ## Worker-envelope computation -/

set_option maxHeartbeats 2000000 in
/-- Unfolding of the worker happy path: the returned envelope has status
SUCCESS, the externalized result dict, and a timing map holding exactly the
four phases, each a 2-decimal rounding of `stop*1000 - start*1000`. -/
theorem process_inference_envelope (clock : ℕ → ℚ) (task_id : String)
    (run_result : List (String × PyValue))
    (upload : PyValue → String → String → String)
    (callback_url : Option String) (callback_raises : Bool) :
    (process_inference clock task_id run_result upload callback_url callback_raises).1 =
      ⟨task_id, "SUCCESS",
       [("model_loading", round2 (clock 2 * 1000 - clock 1 * 1000)),
        ("inference", round2 (clock 4 * 1000 - clock 3 * 1000)),
        ("storage", round2 (clock 6 * 1000 - clock 5 * 1000)),
        ("total", round2 (clock 7 * 1000 - clock 0 * 1000))],
       storage_phase upload task_id run_result⟩ := by
  cases callback_url <;> rfl

theorem lookupK_eraseK_self {α : Type} (k : String) (l : List (String × α)) :
    lookupK k (eraseK k l) = none :=
  lookupK_filter_self_ne k l

/-! ## C3 — artifact externalization in the SUCCESS envelope -/

/-- C3 counterexample: a run whose result carries `image_bytes` yields a
SUCCESS envelope with `s3_key`/`s3_url` metadata — there are no
`blob_key`/`blob_url` keys. -/
theorem success_envelope_key_names_cex :
    lookupK "image_bytes" runResult0 = some (.pyBytes [1, 2, 3]) ∧
    lookupK "blob_key"
      ((process_inference clock0 "task-1" runResult0 upload0 none false).1).result = none ∧
    lookupK "blob_url"
      ((process_inference clock0 "task-1" runResult0 upload0 none false).1).result = none ∧
    lookupK "s3_key"
      ((process_inference clock0 "task-1" runResult0 upload0 none false).1).result =
      some (.pyStr "results/task-1.png") := by
  refine ⟨rfl, ?_, ?_, ?_⟩ <;> (rw [process_inference_envelope]; rfl)

/-- C3 amended: a SUCCESS envelope for a run with a binary artifact
(`image_bytes` in the runner result) carries the blob metadata under the
keys `s3_key` and `s3_url` (`s3_key = "results/" ++ task_id ++ ".png"`,
`s3_url` the storage upload's return value) and no longer contains the raw
`image_bytes`. -/
theorem success_envelope_externalizes_amended (clock : ℕ → ℚ) (task_id : String)
    (run_result : List (String × PyValue))
    (upload : PyValue → String → String → String)
    (callback_url : Option String) (callback_raises : Bool) (v : PyValue)
    (himg : lookupK "image_bytes" run_result = some v) :
    ((process_inference clock task_id run_result upload callback_url
      callback_raises).1).status = "SUCCESS" ∧
    lookupK "s3_key"
      ((process_inference clock task_id run_result upload callback_url
        callback_raises).1).result =
      some (.pyStr ("results/" ++ task_id ++ ".png")) ∧
    lookupK "s3_url"
      ((process_inference clock task_id run_result upload callback_url
        callback_raises).1).result =
      some (.pyStr (upload v ("results/" ++ task_id ++ ".png") "image/png")) ∧
    lookupK "image_bytes"
      ((process_inference clock task_id run_result upload callback_url
        callback_raises).1).result = none := by
  rw [process_inference_envelope]
  refine ⟨rfl, ?_, ?_, ?_⟩ <;>
    simp only [storage_phase, himg]
  · rw [lookupK_eraseK_ne _ _ _ (by decide), lookupK_upsert_ne _ _ _ _ (by decide),
      lookupK_upsert_self]
  · rw [lookupK_eraseK_ne _ _ _ (by decide), lookupK_upsert_self]
  · exact lookupK_eraseK_self _ _

/-- Witness for `success_envelope_externalizes_amended` on a concrete run. -/
theorem success_envelope_externalizes_amended_witness :
    lookupK "image_bytes" runResult0 = some (.pyBytes [1, 2, 3]) ∧
    (((process_inference clock0 "task-1" runResult0 upload0 none false).1).status =
      "SUCCESS" ∧
     lookupK "s3_key"
       ((process_inference clock0 "task-1" runResult0 upload0 none false).1).result =
       some (.pyStr ("results/" ++ "task-1" ++ ".png")) ∧
     lookupK "s3_url"
       ((process_inference clock0 "task-1" runResult0 upload0 none false).1).result =
       some (.pyStr (upload0 (.pyBytes [1, 2, 3]) ("results/" ++ "task-1" ++ ".png")
         "image/png")) ∧
     lookupK "image_bytes"
       ((process_inference clock0 "task-1" runResult0 upload0 none false).1).result =
       none) :=
  ⟨rfl, success_envelope_externalizes_amended clock0 "task-1" runResult0 upload0 none false
    (.pyBytes [1, 2, 3]) rfl⟩

/-! ## C8 — callback failure does not change the task outcome -/

/-- C8: with a `callback_url` the envelope is POSTed once to that URL as
JSON with a 30 s timeout, and whether or not the POST raises, the worker
still returns the same SUCCESS envelope. -/
theorem callback_failure_keeps_success (clock : ℕ → ℚ) (task_id : String)
    (run_result : List (String × PyValue))
    (upload : PyValue → String → String → String) (url : String)
    (callback_raises : Bool) :
    (process_inference clock task_id run_result upload (some url) callback_raises).2.2 =
      [⟨url,
        (process_inference clock task_id run_result upload (some url) callback_raises).1,
        30⟩] ∧
    ((process_inference clock task_id run_result upload (some url)
      callback_raises).1).status = "SUCCESS" ∧
    (process_inference clock task_id run_result upload (some url) true).1 =
      (process_inference clock task_id run_result upload (some url) false).1 := by
  refine ⟨rfl, ?_, ?_⟩
  · rw [process_inference_envelope]
  · rw [process_inference_envelope, process_inference_envelope]

/-! ## C10 — the envelope's timing is a pre-callback snapshot -/

/-- C10: the returned envelope's timing map has no `"callback"` entry, and
the envelope is identical whether the callback succeeds, fails, or is
absent. -/
theorem envelope_timing_unaffected_by_callback (clock : ℕ → ℚ) (task_id : String)
    (run_result : List (String × PyValue))
    (upload : PyValue → String → String → String) (url : String) (b b' : Bool) :
    lookupK "callback"
      ((process_inference clock task_id run_result upload (some url) b).1).timing =
      none ∧
    (process_inference clock task_id run_result upload (some url) b).1 =
      (process_inference clock task_id run_result upload (some url) b').1 ∧
    (process_inference clock task_id run_result upload (some url) b).1 =
      (process_inference clock task_id run_result upload none b').1 := by
  refine ⟨?_, ?_, ?_⟩
  · rw [process_inference_envelope]
    rfl
  · rw [process_inference_envelope, process_inference_envelope]
  · rw [process_inference_envelope, process_inference_envelope]

/-! ## C7 — timer law -/

theorem round2_le (x : ℚ) : round2 x ≤ x + 1 / 200 := by
  have h := abs_sub_round (x * 100)
  rw [abs_sub_le_iff] at h
  unfold round2
  have h2 := h.2
  rw [div_le_iff₀ (by norm_num : (0 : ℚ) < 100)]
  linarith

theorem le_round2 (x : ℚ) : x - 1 / 200 ≤ round2 x := by
  have h := abs_sub_round (x * 100)
  rw [abs_sub_le_iff] at h
  unfold round2
  have h1 := h.1
  rw [le_div_iff₀ (by norm_num : (0 : ℚ) < 100)]
  linarith

theorem round2_nonneg {x : ℚ} (hx : 0 ≤ x) : 0 ≤ round2 x := by
  unfold round2
  apply div_nonneg _ (by norm_num)
  have hz : (0 : ℤ) ≤ round (x * 100) := by
    rw [round_eq]
    apply Int.le_floor.mpr
    push_cast
    linarith
  exact_mod_cast hz

/-- C7: with a monotone clock, every phase duration in the envelope's
timing map is non-negative, and the three non-total phases sum to at most
`timing["total"]` plus `ε = 1/50` ms (rounding each of four entries to two
decimals can cost at most `4 × 1/200`). -/
theorem worker_timing_law (clock : ℕ → ℚ) (task_id : String)
    (run_result : List (String × PyValue))
    (upload : PyValue → String → String → String)
    (callback_url : Option String) (callback_raises : Bool)
    (hmono : ∀ i j : ℕ, i ≤ j → clock i ≤ clock j) :
    (∀ p ∈ ((process_inference clock task_id run_result upload callback_url
      callback_raises).1).timing, 0 ≤ p.2) ∧
    (∀ ml inf st tot : ℚ,
      lookupK "model_loading" ((process_inference clock task_id run_result upload
        callback_url callback_raises).1).timing = some ml →
      lookupK "inference" ((process_inference clock task_id run_result upload
        callback_url callback_raises).1).timing = some inf →
      lookupK "storage" ((process_inference clock task_id run_result upload
        callback_url callback_raises).1).timing = some st →
      lookupK "total" ((process_inference clock task_id run_result upload
        callback_url callback_raises).1).timing = some tot →
      ml + inf + st ≤ tot + 1 / 50) := by
  have hd : ∀ i j : ℕ, i ≤ j → 0 ≤ clock j * 1000 - clock i * 1000 := by
    intro i j hij
    have := hmono i j hij
    nlinarith
  rw [process_inference_envelope]
  constructor
  · intro p hp
    simp only [List.mem_cons, List.not_mem_nil, or_false] at hp
    rcases hp with rfl | rfl | rfl | rfl <;>
      exact round2_nonneg (by
        first
        | exact hd 1 2 (by norm_num)
        | exact hd 3 4 (by norm_num)
        | exact hd 5 6 (by norm_num)
        | exact hd 0 7 (by norm_num))
  · intro ml inf st tot hml hinf hst htot
    have eml : ml = round2 (clock 2 * 1000 - clock 1 * 1000) := by
      have : some (round2 (clock 2 * 1000 - clock 1 * 1000)) = some ml := by
        rw [← hml]; rfl
      exact (Option.some.inj this).symm
    have einf : inf = round2 (clock 4 * 1000 - clock 3 * 1000) := by
      have : some (round2 (clock 4 * 1000 - clock 3 * 1000)) = some inf := by
        rw [← hinf]; rfl
      exact (Option.some.inj this).symm
    have est : st = round2 (clock 6 * 1000 - clock 5 * 1000) := by
      have : some (round2 (clock 6 * 1000 - clock 5 * 1000)) = some st := by
        rw [← hst]; rfl
      exact (Option.some.inj this).symm
    have etot : tot = round2 (clock 7 * 1000 - clock 0 * 1000) := by
      have : some (round2 (clock 7 * 1000 - clock 0 * 1000)) = some tot := by
        rw [← htot]; rfl
      exact (Option.some.inj this).symm
    subst eml einf est etot
    have b1 := round2_le (clock 2 * 1000 - clock 1 * 1000)
    have b2 := round2_le (clock 4 * 1000 - clock 3 * 1000)
    have b3 := round2_le (clock 6 * 1000 - clock 5 * 1000)
    have b4 := le_round2 (clock 7 * 1000 - clock 0 * 1000)
    have g0 := hd 0 1 (by norm_num)
    have g1 := hd 2 3 (by norm_num)
    have g2 := hd 4 5 (by norm_num)
    have g3 := hd 6 7 (by norm_num)
    linarith

/-- Witness for `worker_timing_law` at the identity clock. -/
theorem worker_timing_law_witness :
    (∀ i j : ℕ, i ≤ j → clock0 i ≤ clock0 j) ∧
    ((∀ p ∈ ((process_inference clock0 "task-1" runResult0 upload0 none
      false).1).timing, 0 ≤ p.2) ∧
    (∀ ml inf st tot : ℚ,
      lookupK "model_loading" ((process_inference clock0 "task-1" runResult0 upload0
        none false).1).timing = some ml →
      lookupK "inference" ((process_inference clock0 "task-1" runResult0 upload0
        none false).1).timing = some inf →
      lookupK "storage" ((process_inference clock0 "task-1" runResult0 upload0
        none false).1).timing = some st →
      lookupK "total" ((process_inference clock0 "task-1" runResult0 upload0
        none false).1).timing = some tot →
      ml + inf + st ≤ tot + 1 / 50)) :=
  have hmono : ∀ i j : ℕ, i ≤ j → clock0 i ≤ clock0 j := fun i j h => by
    unfold clock0
    exact_mod_cast h
  ⟨hmono, worker_timing_law clock0 "task-1" runResult0 upload0 none false hmono⟩

/-! ## C1 — idempotent resubmission -/

theorem lookupK_filter_upsert {α : Type} (k : String) (v : α) (l : List (String × α))
    (p : String × α → Bool) (hp : p (k, v) = true) :
    lookupK k ((upsert k v l).filter p) = some v := by
  unfold upsert
  rw [List.filter_append, lookupK_append]
  have h1 : lookupK k ((l.filter (fun q => q.1 ≠ k)).filter p) = none := by
    apply lookupK_eq_none_of_forall
    intro e he
    have h2 := List.of_mem_filter (List.mem_of_mem_filter he)
    simpa using h2
  rw [h1]
  simp [List.filter_cons, hp, lookupK]

theorem get_task_id_ttl (c : IdempotencyCache) (crid : String) (now : ℚ) :
    ((c.get_task_id crid now).1).ttl_seconds = c.ttl_seconds := by
  unfold IdempotencyCache.get_task_id
  simp only []
  split
  · split <;> rfl
  · rfl

/-- A `get_task_id` right after `set_task_id` for the same key, within the
TTL, finds the stored task id: the cleanup keeps the entry
(`now2 - now1 ≤ ttl`) and the freshness test passes (`now2 - now1 < ttl`). -/
theorem get_task_id_after_set (c : IdempotencyCache) (crid task_id : String)
    (now1 now2 : ℚ) (httl : now2 - now1 < c.ttl_seconds) :
    (((c.set_task_id crid task_id now1).get_task_id crid now2)).2 = some task_id := by
  unfold IdempotencyCache.get_task_id IdempotencyCache.set_task_id
    IdempotencyCache._cleanup_expired
  simp only []
  rw [lookupK_filter_upsert crid (task_id, now1) c.cache _ (by
    simp only [decide_eq_true_eq]
    exact not_lt.mpr (le_of_lt httl))]
  simp only [if_pos httl]

/-- C1: two submissions that pass auth and rate limiting and share a
non-empty `client_request_id`, the second arriving within the idempotency
TTL of the first, return the identical `task_id`; the first publishes
exactly one message and the second publishes nothing. -/
theorem idempotent_resubmit_single_enqueue {ι : Type}
    (models valid_keys : List String) (st : GatewayState ι)
    (api_key : Option String) (req1 req2 : TaskRequest ι) (now1 now2 : ℚ)
    (tid1 tid2 : String) (key crid : String)
    (hauth : verify_api_key api_key valid_keys = .ok key)
    (hcrid1 : req1.client_request_id = some crid)
    (hcrid2 : req2.client_request_id = some crid)
    (hne : crid ≠ "")
    (hmodel : req1.model ∈ models)
    (hmiss : (st.idemCache.get_task_id crid now1).2 = none)
    (hrl1 : (st.rateLimiter.check_rate_limit key now1).2 = true)
    (hrl2 : (((submit_task models valid_keys st api_key req1 now1 tid1).1).rateLimiter.check_rate_limit
      key now2).2 = true)
    (httl : now2 - now1 < st.idemCache.ttl_seconds) :
    (submit_task models valid_keys st api_key req1 now1 tid1).2 =
      .accepted tid1 "PENDING" ∧
    (∃ m : PublishedMsg ι,
      ((submit_task models valid_keys st api_key req1 now1 tid1).1).published =
        st.published ++ [m] ∧ m.task_id = tid1) ∧
    (submit_task models valid_keys
      ((submit_task models valid_keys st api_key req1 now1 tid1).1)
      api_key req2 now2 tid2).2 = .accepted tid1 "PENDING" ∧
    ((submit_task models valid_keys
      ((submit_task models valid_keys st api_key req1 now1 tid1).1)
      api_key req2 now2 tid2).1).published =
      ((submit_task models valid_keys st api_key req1 now1 tid1).1).published := by
  rcases hck1 : st.rateLimiter.check_rate_limit key now1 with ⟨rl1, ok1⟩
  rw [hck1] at hrl1
  simp only at hrl1
  subst hrl1
  have htrs : isTruthy (some crid) = true := by
    simp [isTruthy, hne]
  have htr1 : isTruthy req1.client_request_id = true := by
    rw [hcrid1, htrs]
  have htr2 : isTruthy req2.client_request_id = true := by
    rw [hcrid2, htrs]
  rcases hgt1 : st.idemCache.get_task_id crid now1 with ⟨c1, found1⟩
  rw [hgt1] at hmiss
  simp only at hmiss
  subst hmiss
  have hfst : submit_task models valid_keys st api_key req1 now1 tid1 =
      (⟨rl1, c1.set_task_id crid tid1 now1, st.published ++
        [⟨"app.tasks.gpu_worker.process_inference", "gpu-" ++ req1.priority.str, tid1,
          req1.model, req1.input, req1.callback_url, req1.priority.num⟩]⟩,
       .accepted tid1 "PENDING") := by
    simp only [submit_task, hauth, hck1, htr1, hcrid1, Option.getD_some, hgt1,
      Bool.not_true, Bool.false_eq_true, if_false, if_true]
    unfold submitCore
    rw [if_pos hmodel]
    simp [htrs, hcrid1]
  have hc1ttl : c1.ttl_seconds = st.idemCache.ttl_seconds := by
    rw [← get_task_id_ttl st.idemCache crid now1, hgt1]
  have hget2 : ((c1.set_task_id crid tid1 now1).get_task_id crid now2).2 = some tid1 :=
    get_task_id_after_set c1 crid tid1 now1 now2 (by rw [hc1ttl]; exact httl)
  rw [hfst] at hrl2
  simp only at hrl2
  rcases hck2 : rl1.check_rate_limit key now2 with ⟨rl2, ok2⟩
  rw [hck2] at hrl2
  simp only at hrl2
  subst hrl2
  rcases hgt2 : (c1.set_task_id crid tid1 now1).get_task_id crid now2 with ⟨c2, found2⟩
  rw [hgt2] at hget2
  simp only at hget2
  subst hget2
  refine ⟨by rw [hfst], ⟨_, by rw [hfst], rfl⟩, ?_, ?_⟩ <;>
    · rw [hfst]
      simp only [submit_task, hauth, hck2, htr2, htrs, hcrid2, Option.getD_some, hgt2,
        Bool.not_true, Bool.false_eq_true, if_false, if_true]

/-- Witness for `idempotent_resubmit_single_enqueue`: the double submission
of end-to-end scenario 6, both requests at time 0. -/
theorem idempotent_resubmit_single_enqueue_witness :
    verify_api_key (some "test-key-123") ["test-key-123"] = .ok "test-key-123" ∧
    reqIdem.client_request_id = some "unique-request-123" ∧
    ("unique-request-123" : String) ≠ "" ∧
    reqIdem.model ∈ ["superres-x4"] ∧
    (gw0.idemCache.get_task_id "unique-request-123" 0).2 = none ∧
    (gw0.rateLimiter.check_rate_limit "test-key-123" 0).2 = true ∧
    (((submit_task ["superres-x4"] ["test-key-123"] gw0 (some "test-key-123") reqIdem 0
      "tid-1").1).rateLimiter.check_rate_limit "test-key-123" 0).2 = true ∧
    (0 : ℚ) - 0 < gw0.idemCache.ttl_seconds ∧
    ((submit_task ["superres-x4"] ["test-key-123"] gw0 (some "test-key-123") reqIdem 0
        "tid-1").2 = .accepted "tid-1" "PENDING" ∧
     (∃ m : PublishedMsg Unit,
       ((submit_task ["superres-x4"] ["test-key-123"] gw0 (some "test-key-123") reqIdem 0
         "tid-1").1).published = gw0.published ++ [m] ∧ m.task_id = "tid-1") ∧
     (submit_task ["superres-x4"] ["test-key-123"]
       ((submit_task ["superres-x4"] ["test-key-123"] gw0 (some "test-key-123") reqIdem 0
         "tid-1").1) (some "test-key-123") reqIdem 0 "tid-2").2 =
       .accepted "tid-1" "PENDING" ∧
     ((submit_task ["superres-x4"] ["test-key-123"]
       ((submit_task ["superres-x4"] ["test-key-123"] gw0 (some "test-key-123") reqIdem 0
         "tid-1").1) (some "test-key-123") reqIdem 0 "tid-2").1).published =
       ((submit_task ["superres-x4"] ["test-key-123"] gw0 (some "test-key-123") reqIdem 0
         "tid-1").1).published) := by
  have hrl2 : (((submit_task ["superres-x4"] ["test-key-123"] gw0 (some "test-key-123")
      reqIdem 0 "tid-1").1).rateLimiter.check_rate_limit "test-key-123" 0).2 = true := by
    have h1 : ((submit_task ["superres-x4"] ["test-key-123"] gw0 (some "test-key-123")
        reqIdem 0 "tid-1").1).rateLimiter = ⟨60, [("test-key-123", [0])]⟩ := rfl
    rw [h1]
    norm_num [RateLimiter.check_rate_limit, lookupK, upsert, List.filter]
  refine ⟨rfl, rfl, by decide, by decide, rfl, rfl, hrl2, by norm_num [gw0], ?_⟩
  exact idempotent_resubmit_single_enqueue ["superres-x4"] ["test-key-123"] gw0
    (some "test-key-123") reqIdem reqIdem 0 0 "tid-1" "tid-2" "test-key-123"
    "unique-request-123" rfl rfl rfl (by decide) (by decide) rfl rfl hrl2
    (by norm_num [gw0])

/-! ## C4 — sliding-window rate limiting -/

theorem lastTime_append_singleton (K : String) (evs : List RLEvent) (e : RLEvent) :
    lastTime K (evs ++ [e]) = if e.key = K then some e.time else lastTime K evs := by
  unfold lastTime
  rw [List.foldl_append]
  rfl

theorem lastTime_mem (K : String) (evs : List RLEvent) (m : ℚ)
    (h : lastTime K evs = some m) : ∃ e ∈ evs, e.time = m := by
  induction evs using List.reverseRecOn with
  | nil => simp [lastTime] at h
  | append_singleton evs e ih =>
    rw [lastTime_append_singleton] at h
    by_cases hk : e.key = K
    · rw [if_pos hk] at h
      exact ⟨e, by simp, Option.some.inj h⟩
    · rw [if_neg hk] at h
      obtain ⟨e', he', ht⟩ := ih h
      exact ⟨e', by simp [he'], ht⟩

theorem acceptedAbove_snoc (K : String) (c : ℚ) (evs : List RLEvent) (e : RLEvent) :
    acceptedAbove K c (evs ++ [e]) = acceptedAbove K c evs +
      (if decide (e.key = K) && e.ok && decide (c < e.time) then 1 else 0) := by
  unfold acceptedAbove
  rw [List.countP_append]
  congr 1
  simp [List.countP_cons]

theorem countP_trim (b : List ℚ) (t0 c : ℚ) (h : t0 ≤ c) :
    (b.filter (fun x => decide (t0 < x))).countP (fun x => decide (c < x)) =
      b.countP (fun x => decide (c < x)) := by
  induction b with
  | nil => rfl
  | cons a l ih =>
    by_cases h1 : t0 < a
    · rw [List.filter_cons_of_pos (by simpa using h1), List.countP_cons, List.countP_cons, ih]
    · have h2 : ¬ c < a := fun hc => h1 (lt_of_le_of_lt h hc)
      rw [List.filter_cons_of_neg (by simpa using h1), List.countP_cons, ih]
      simp [h2]

theorem check_preserves_limit (rl : RateLimiter) (k : String) (t : ℚ) :
    ((rl.check_rate_limit k t).1).requests_per_minute = rl.requests_per_minute := by
  unfold RateLimiter.check_rate_limit
  simp only []
  split <;> rfl

theorem bucketOf_upsert_self (rl : RateLimiter) (k : String) (lst : List ℚ) :
    bucketOf { rl with requests := upsert k lst rl.requests } k = lst := by
  unfold bucketOf
  rw [lookupK_upsert_self]
  rfl

theorem bucketOf_upsert_ne (rl : RateLimiter) (k K : String) (lst : List ℚ) (h : K ≠ k) :
    bucketOf { rl with requests := upsert k lst rl.requests } K = bucketOf rl K := by
  unfold bucketOf
  rw [lookupK_upsert_ne _ _ _ _ h]

/-- One `check_rate_limit` call preserves the state invariant, and an
accepted call implies fewer than `requests_per_minute` previously accepted
calls for its key within its trailing 60 s. -/
theorem RLInv_step (rl : RateLimiter) (evs : List RLEvent) (k : String) (t : ℚ)
    (hinv : RLInv rl evs) (hle : ∀ e ∈ evs, e.time ≤ t) :
    RLInv (rl.check_rate_limit k t).1 (evs ++ [⟨k, t, (rl.check_rate_limit k t).2⟩]) ∧
    ((rl.check_rate_limit k t).2 = true →
      acceptedAbove k (t - 60) evs < rl.requests_per_minute) := by
  have hcond : ∀ c : ℚ, t - 60 ≤ c → ∀ m, lastTime k evs = some m → m - 60 ≤ c := by
    intro c hc m hm
    obtain ⟨e, he, ht⟩ := lastTime_mem k evs m hm
    have h1 := hle e he
    rw [ht] at h1
    linarith
  by_cases hfull : rl.requests_per_minute ≤
      ((bucketOf rl k).filter (fun x => decide (t - 60 < x))).length
  · have hck : rl.check_rate_limit k t =
        ({ rl with
            requests :=
              upsert k ((bucketOf rl k).filter (fun x => decide (t - 60 < x)))
                rl.requests },
         false) := by
      unfold RateLimiter.check_rate_limit bucketOf at hfull ⊢
      simp only []
      rw [if_pos hfull]
    rw [hck]
    refine ⟨?_, by simp⟩
    intro K c hc
    rw [acceptedAbove_snoc]
    simp only [Bool.and_false, Bool.false_and, Bool.false_eq_true, if_false, add_zero]
    by_cases hK : k = K
    · subst hK
      rw [lastTime_append_singleton] at hc
      simp only [if_pos rfl] at hc
      have hc' : t - 60 ≤ c := by
        have := hc t rfl
        linarith
      rw [bucketOf_upsert_self, countP_trim _ _ _ hc']
      exact hinv k c (hcond c hc')
    · rw [bucketOf_upsert_ne _ _ _ _ (Ne.symm hK)]
      apply hinv K c
      intro m hm
      apply hc m
      rw [lastTime_append_singleton, if_neg hK]
      exact hm
  · have hck : rl.check_rate_limit k t =
        ({ rl with
            requests :=
              upsert k (((bucketOf rl k).filter (fun x => decide (t - 60 < x))) ++ [t])
                rl.requests },
         true) := by
      unfold RateLimiter.check_rate_limit bucketOf at hfull ⊢
      simp only []
      rw [if_neg hfull]
    rw [hck]
    have haccept : acceptedAbove k (t - 60) evs < rl.requests_per_minute := by
      have h1 := hinv k (t - 60) (hcond (t - 60) le_rfl)
      rw [List.countP_eq_length_filter] at h1
      omega
    refine ⟨?_, fun _ => haccept⟩
    intro K c hc
    rw [acceptedAbove_snoc]
    by_cases hK : k = K
    · subst hK
      rw [lastTime_append_singleton] at hc
      simp only [if_pos rfl] at hc
      have hc' : t - 60 ≤ c := by
        have := hc t rfl
        linarith
      rw [bucketOf_upsert_self, List.countP_append, countP_trim _ _ _ hc']
      have hbase := hinv k c (hcond c hc')
      by_cases hct : c < t
      all_goals
        simp only [List.countP_cons, List.countP_nil]
        simp [hct]
        try omega
    · rw [bucketOf_upsert_ne _ _ _ _ (Ne.symm hK)]
      have hz : (decide ((⟨k, t, true⟩ : RLEvent).key = K) && (⟨k, t, true⟩ : RLEvent).ok &&
          decide (c < (⟨k, t, true⟩ : RLEvent).time)) = false := by
        simp [hK]
      rw [hz]
      simp only [Bool.false_eq_true, if_false, add_zero]
      apply hinv K c
      intro m hm
      apply hc m
      rw [lastTime_append_singleton, if_neg hK]
      exact hm

theorem GoodRun_snoc (L : ℕ) (evs : List RLEvent) (e : RLEvent)
    (h : GoodRun L evs)
    (he : e.ok = true → acceptedAbove e.key (e.time - 60) evs < L) :
    GoodRun L (evs ++ [e]) := by
  intro pre x post heq hok
  rcases List.eq_nil_or_concat post with hpost | ⟨post', y, hpost⟩
  · subst hpost
    obtain ⟨hpre, hx⟩ := List.append_inj' heq rfl
    obtain rfl : e = x := by injection hx
    subst hpre
    exact he hok
  · subst hpost
    have heq2 : evs ++ [e] = (pre ++ x :: post') ++ [y] := by
      rw [heq]
      simp
    obtain ⟨hpre, _⟩ := List.append_inj' heq2 rfl
    exact h pre x post' hpre hok

theorem runCalls_good (rl : RateLimiter) (cs : List (String × ℚ)) (evs : List RLEvent)
    (hinv : RLInv rl evs)
    (hgood : GoodRun rl.requests_per_minute evs)
    (hsort : (evs.map RLEvent.time ++ cs.map Prod.snd).Pairwise (· ≤ ·)) :
    GoodRun rl.requests_per_minute (evs ++ (runCalls rl cs).2) := by
  induction cs generalizing rl evs with
  | nil => simpa [runCalls] using hgood
  | cons c rest ih =>
    obtain ⟨k, t⟩ := c
    have hle : ∀ e ∈ evs, e.time ≤ t := by
      intro e he
      have h1 := (List.pairwise_append.mp hsort).2.2
      exact h1 e.time (List.mem_map_of_mem _ he) t (by simp)
    have hstep := RLInv_step rl evs k t hinv hle
    have hlim := check_preserves_limit rl k t
    have hgood1 : GoodRun ((rl.check_rate_limit k t).1).requests_per_minute
        (evs ++ [⟨k, t, (rl.check_rate_limit k t).2⟩]) := by
      rw [hlim]
      apply GoodRun_snoc _ _ _ hgood
      intro hok
      exact hstep.2 hok
    have hsort1 : ((evs ++ [RLEvent.mk k t (rl.check_rate_limit k t).2]).map RLEvent.time ++
        rest.map Prod.snd).Pairwise (· ≤ ·) := by
      have heq : (evs ++ [RLEvent.mk k t (rl.check_rate_limit k t).2]).map RLEvent.time ++
          rest.map Prod.snd = evs.map RLEvent.time ++ ((k, t) :: rest).map Prod.snd := by
        simp
      rw [heq]
      exact hsort
    have hmain := ih (rl.check_rate_limit k t).1
      (evs ++ [⟨k, t, (rl.check_rate_limit k t).2⟩]) hstep.1 hgood1 hsort1
    have heq2 : evs ++ (runCalls rl ((k, t) :: rest)).2 =
        (evs ++ [⟨k, t, (rl.check_rate_limit k t).2⟩]) ++
          (runCalls (rl.check_rate_limit k t).1 rest).2 := by
      simp [runCalls]
    rw [heq2, ← hlim]
    exact hmain

theorem acceptedInWindow_le_of_good (L : ℕ) (K : String) (T : ℚ) (evs : List RLEvent)
    (hgood : GoodRun L evs) : acceptedInWindow K T evs ≤ L := by
  induction evs using List.reverseRecOn with
  | nil => simp [acceptedInWindow]
  | append_singleton evs e ih =>
    have hgood0 : GoodRun L evs := by
      intro pre x post heq hok
      exact hgood pre x (post ++ [e]) (by rw [heq]; simp) hok
    unfold acceptedInWindow at ih ⊢
    rw [List.countP_append]
    by_cases hw : e.key = K ∧ e.ok = true ∧ T - 60 < e.time ∧ e.time ≤ T
    · obtain ⟨hk, hok, hlo, hhi⟩ := hw
      have hlast := hgood evs e [] rfl hok
      have hmono : evs.countP (fun e' =>
          decide (e'.key = K) && e'.ok && decide (T - 60 < e'.time) &&
            decide (e'.time ≤ T)) ≤ acceptedAbove e.key (e.time - 60) evs := by
        unfold acceptedAbove
        apply List.countP_mono_left
        intro a _ hp
        simp only [Bool.and_eq_true, decide_eq_true_eq] at hp ⊢
        obtain ⟨⟨⟨h1, h2⟩, h3⟩, h4⟩ := hp
        exact ⟨⟨hk ▸ h1, h2⟩, by linarith⟩
      have hcount1 : List.countP (fun e' =>
          decide (e'.key = K) && e'.ok && decide (T - 60 < e'.time) &&
            decide (e'.time ≤ T)) [e] = 1 := by
        simp [List.countP_cons, hk, hok, hlo, hhi]
      omega
    · have hfalse : (decide (e.key = K) && e.ok && decide (T - 60 < e.time) &&
          decide (e.time ≤ T)) = false := by
        cases h1 : (decide (e.key = K) && e.ok && decide (T - 60 < e.time) &&
            decide (e.time ≤ T)) with
        | false => rfl
        | true =>
          exfalso
          apply hw
          simp only [Bool.and_eq_true, decide_eq_true_eq] at h1
          exact ⟨h1.1.1.1, h1.1.1.2, h1.1.2, h1.2⟩
      have hcount0 : List.countP (fun e' =>
          decide (e'.key = K) && e'.ok && decide (T - 60 < e'.time) &&
            decide (e'.time ≤ T)) [e] = 0 := by
        simp [List.countP_cons, hfalse]
      have := ih hgood0
      omega

theorem burst_accept_aux (L : ℕ) (K : String) (t : ℚ) :
    ∀ (n i : ℕ) (reqs : List (String × List ℚ)),
      (lookupK K reqs).getD [] = List.replicate i t → i + n ≤ L →
      ((runCalls ⟨L, reqs⟩ (List.replicate n (K, t))).2).map RLEvent.ok =
        List.replicate n true := by
  intro n
  induction n with
  | zero =>
    intro i reqs _ _
    simp [runCalls]
  | succ m ih =>
    intro i reqs hbucket hn
    have htr : (List.replicate i t).filter (fun x => decide (t - 60 < x)) =
        List.replicate i t := by
      apply List.filter_eq_self.mpr
      intro a ha
      have hat := List.eq_of_mem_replicate ha
      subst hat
      simp only [decide_eq_true_eq]
      linarith
    have hck : RateLimiter.check_rate_limit ⟨L, reqs⟩ K t =
        (⟨L, upsert K (List.replicate (i + 1) t) reqs⟩, true) := by
      unfold RateLimiter.check_rate_limit
      simp only [hbucket, htr, List.length_replicate]
      rw [if_neg (by omega)]
      rw [List.replicate_succ']
    rw [List.replicate_succ]
    simp only [runCalls, hck, List.map_cons]
    rw [List.replicate_succ]
    congr 1
    apply ih (i + 1)
    · rw [lookupK_upsert_self]
      rfl
    · omega

/-- C4: from a fresh limiter with limit `L` processing time-ordered calls,
at most `L` calls for any key are accepted inside any trailing 60-second
window; a burst of up to `L` simultaneous calls is fully accepted; and
after `reset(K)` the next check for `K` is accepted (limit at least 1). -/
theorem rate_limit_window_burst_reset (L : ℕ) (cs : List (String × ℚ))
    (hsort : (cs.map Prod.snd).Pairwise (· ≤ ·)) (K : String) (T : ℚ) :
    acceptedInWindow K T ((runCalls (RateLimiter.init L) cs).2) ≤ L ∧
    (∀ (n : ℕ) (t : ℚ), n ≤ L →
      ((runCalls (RateLimiter.init L) (List.replicate n (K, t))).2).map RLEvent.ok =
        List.replicate n true) ∧
    (∀ (rl : RateLimiter) (now : ℚ), 1 ≤ rl.requests_per_minute →
      ((rl.reset K).check_rate_limit K now).2 = true) := by
  refine ⟨?_, ?_, ?_⟩
  · have hinv0 : RLInv (RateLimiter.init L) [] := by
      intro K' c _
      simp [acceptedAbove]
    have hgood0 : GoodRun L [] := by
      intro pre e post heq _
      exact absurd heq (by simp)
    have hg := runCalls_good (RateLimiter.init L) cs [] hinv0 hgood0 (by simpa using hsort)
    have hb := acceptedInWindow_le_of_good L K T _ hg
    simpa using hb
  · intro n t hn
    exact burst_accept_aux L K t n 0 [] rfl (by omega)
  · intro rl now h1
    unfold RateLimiter.reset RateLimiter.check_rate_limit
    simp only [lookupK_eraseK_self, Option.getD_none, List.filter_nil, List.length_nil]
    rw [if_neg (by omega)]

/-- Witness for `rate_limit_window_burst_reset`: limit 2, three calls at one
instant (scenario 7). -/
theorem rate_limit_window_burst_reset_witness :
    (([("k1", (0 : ℚ)), ("k1", 0), ("k1", 0)].map Prod.snd).Pairwise (· ≤ ·)) ∧
    (acceptedInWindow "k1" 0
      ((runCalls (RateLimiter.init 2) [("k1", (0 : ℚ)), ("k1", 0), ("k1", 0)]).2) ≤ 2 ∧
    (∀ (n : ℕ) (t : ℚ), n ≤ 2 →
      ((runCalls (RateLimiter.init 2) (List.replicate n ("k1", t))).2).map RLEvent.ok =
        List.replicate n true) ∧
    (∀ (rl : RateLimiter) (now : ℚ), 1 ≤ rl.requests_per_minute →
      ((rl.reset "k1").check_rate_limit "k1" now).2 = true)) :=
  ⟨by simp, rate_limit_window_burst_reset 2 [("k1", 0), ("k1", 0), ("k1", 0)] (by simp)
    "k1" 0⟩

end InferenceServer
